import Mathlib

/-!
# Verification of `sentry-eyre` (`src/lib.rs`)

Shallow embedding of the `sentry-eyre` crate: the conversion of an `eyre::Report`
(a chain of error causes plus an optional captured backtrace) into a Sentry
`Event`, and its dispatch through the active `Hub`.

The crate's own code (`event_from_report`, `capture_report`, and the
`CaptureReportExt` implementation for `Hub`) is translated directly from
`src/lib.rs`.  Its external collaborators — `sentry_core::event_from_error`,
`sentry_backtrace::parse_stacktrace`, `sentry_core::Hub` and the `eyre` report
type — are not part of this repository; they are modelled from the
specification's boundary contract (spec §3, §4.1 step 2, §6), as noted on each
definition.
-/

/-- A parsed stack frame (Sentry protocol `Frame`): optional function name,
file and line, produced by the backtrace parser. -/
structure Frame where
  function : Option String
  filename : Option String
  lineno : Option Nat
deriving DecidableEq, Repr

/-- A stack trace: an ordered sequence of frames (Sentry protocol `Stacktrace`). -/
structure Stacktrace where
  frames : List Frame
deriving DecidableEq, Repr

/-- One exception record of an event (Sentry protocol `Exception`):
type string, rendered message, and an optional attached stack trace. -/
structure Exception where
  ty : String
  value : String
  stacktrace : Option Stacktrace
deriving DecidableEq, Repr

/-- The Sentry `Event`, restricted to the fields this core touches: the ordered
exception list, plus the metadata the default conversion populates (represented
here by the `level` field; spec §3 puts the rest out of scope). -/
structure Event where
  exception : List Exception
  level : String
deriving DecidableEq, Repr

/-- Modelled from the spec: the "described error with optional nested source"
capability of the error-handling collaborator — a non-empty chain of causes,
each with a type name and a rendered message (spec §3 `ErrorReport`, §6). -/
inductive ErrorObj : Type where
  | base (ty message : String)
  | cons (ty message : String) (source : ErrorObj)
deriving DecidableEq, Repr

/-- Type name of an error object. -/
def ErrorObj.ty : ErrorObj → String
  | .base t _ => t
  | .cons t _ _ => t

/-- Rendered message of an error object. -/
def ErrorObj.message : ErrorObj → String
  | .base _ m => m
  | .cons _ m _ => m

/-- The optional nested source of an error object. -/
def ErrorObj.source : ErrorObj → Option ErrorObj
  | .base _ _ => none
  | .cons _ _ s => some s

/-- Modelled from the spec: a captured backtrace value, identified with its
canonical textual debug rendering (the `format!("{backtrace:#?}")` text);
rendering is deterministic (spec §4.1 step 3). -/
structure Backtrace where
  render : String
deriving DecidableEq, Repr

/-- Modelled from the spec: an `eyre::Report` — a root error object (the chain
of causes reached by `source` links) plus an optional captured backtrace
(`stable_eyre::BacktraceExt::backtrace`).  Immutable from this core's
perspective (spec §3). -/
structure Report where
  root : ErrorObj
  backtrace : Option Backtrace
deriving DecidableEq, Repr

/-- Modelled from the spec: the external SDK's conversion of a single error
into one exception record — type name and rendered message, no stack trace
(spec §3 `ExceptionRecord`). -/
def exception_from_error (err : ErrorObj) : Exception :=
  { ty := err.ty, value := err.message, stacktrace := none }

/-- The linearized cause chain of an error object: the error itself followed by
all transitive sources, root first and deepest cause last. -/
def chainList : ErrorObj → List ErrorObj
  | .base t m => [.base t m]
  | .cons t m s => .cons t m s :: chainList s

/-- Modelled from the spec: `sentry_core::event_from_error`, the external SDK's
default "event from error" conversion.  It walks the `source` links and emits
one exception record per link, "ordered such that the last record in the list
is the deepest cause" (spec §4.1 step 2); the remaining event metadata is the
SDK default (error level). -/
def event_from_error (err : ErrorObj) : Event :=
  { exception := (chainList err).map exception_from_error
    level := "error" }

/-- Split a character sequence into lines at newline characters. -/
def linesOf : List Char → List (List Char)
  | [] => [[]]
  | c :: cs =>
    if c = '\n' then [] :: linesOf cs
    else
      match linesOf cs with
      | [] => [[c]]
      | l :: ls => (c :: l) :: ls

/-- Drop leading and trailing whitespace from a character sequence. -/
def trimChars (l : List Char) : List Char :=
  ((l.dropWhile Char.isWhitespace).reverse.dropWhile Char.isWhitespace).reverse

/-- Modelled from the spec: recognition of a single line of rendered backtrace
text as a frame.  A blank line yields no frame; any other line yields a frame
whose recognized content is kept as the function name (spec §3 `StackFrame`,
§7: malformed lines degrade rather than fail). -/
def parseFrameLine (line : List Char) : Option Frame :=
  let t := trimChars line
  if t.isEmpty then none
  else some { function := some (String.mk t), filename := none, lineno := none }

/-- Modelled from the spec: `sentry_backtrace::parse_stacktrace`, the external
backtrace-text-to-frames parser.  It parses the rendered text into an ordered
frame sequence, returning `none` when no frames are recognized; malformed input
degrades to empty or partial frame lists rather than failing (spec §4.1 step 3,
§7). -/
def parse_stacktrace (text : String) : Option Stacktrace :=
  let frames := (linesOf text.data).filterMap parseFrameLine
  if frames.isEmpty then none else some { frames := frames }

/-- Event identifier (`sentry::types::Uuid`), opaque to this core. -/
abbrev Uuid := Nat

/-- Modelled from the spec: the well-defined nil/zero event identifier defined
by the external SDK (spec §4.2). -/
def Uuid.nil : Uuid := 0

/-- Modelled from the spec: the external SDK's active reporting context
(`sentry_core::Hub`), modelled as a test double that records every dispatched
event and produces an identifier for each submission (spec §4.2, §6, §8). -/
structure Hub where
  nextId : Uuid
  captured : List Event
deriving DecidableEq, Repr

/-- Modelled from the spec: `Hub::capture_event` — submits an event to the
context and returns the identifier the context produced (spec §6). -/
def Hub.capture_event (hub : Hub) (event : Event) : Uuid × Hub :=
  (hub.nextId, { hub with captured := hub.captured ++ [event] })

/-- Modelled from the spec: `Hub::with_active` — runs the closure on the
process-wide active context when one is configured, and otherwise returns the
nil identifier without running it (spec §4.2). -/
def with_active (active : Option Hub) (f : Hub → Uuid × Hub) : Uuid × Option Hub :=
  match active with
  | none => (Uuid.nil, none)
  | some hub => ((f hub).1, some (f hub).2)

/-- The in-place update `exc.stacktrace = …` performed through
`event.exception.iter_mut().last()` in `event_from_report`: replace the
`stacktrace` field of the last record, leaving every other record untouched. -/
def setLastStacktrace : List Exception → Option Stacktrace → List Exception
  | [], _ => []
  | [e], st => [{ e with stacktrace := st }]
  | e :: e' :: rest, st => e :: setLastStacktrace (e' :: rest) st

/-- The `stable-backtrace` block of `event_from_report` (src/lib.rs lines
63–74): if the exception list has a last element and the report carries a
captured backtrace, set that last record's stacktrace to the parse of the
backtrace's debug rendering; otherwise leave the event untouched. -/
def attach_backtrace (report : Report) (event : Event) : Event :=
  if event.exception.isEmpty then event
  else
    match report.backtrace with
    | none => event
    | some backtrace =>
      { event with
          exception := setLastStacktrace event.exception
            (parse_stacktrace backtrace.render) }

/-- `event_from_report` (src/lib.rs lines 56–75): build the event via the SDK's
default error conversion, then, when the `stable-backtrace` feature is enabled
(modelled as the `stable_backtrace` flag per spec §9), attach the parsed
backtrace to the last exception record. -/
def event_from_report (stable_backtrace : Bool) (report : Report) : Event :=
  let event := event_from_error report.root
  if stable_backtrace then attach_backtrace report event else event

/-- `CaptureReportExt::capture_report` for `Hub` (src/lib.rs lines 84–88):
build the event with `event_from_report` and submit it with `capture_event`. -/
def Hub.capture_report (hub : Hub) (stable_backtrace : Bool) (report : Report) :
    Uuid × Hub :=
  hub.capture_event (event_from_report stable_backtrace report)

/-- `capture_report` (src/lib.rs lines 50–52): dispatch through the active
context, `Hub::with_active(|hub| hub.capture_report(report))`. -/
def capture_report (stable_backtrace : Bool) (active : Option Hub)
    (report : Report) : Uuid × Option Hub :=
  with_active active (fun hub => hub.capture_report stable_backtrace report)

/-! ## Helper lemmas -/

theorem chainList_ne_nil (e : ErrorObj) : chainList e ≠ [] := by
  cases e <;> simp [chainList]

theorem event_from_error_exception_ne_nil (e : ErrorObj) :
    (event_from_error e).exception ≠ [] := by
  simp [event_from_error, chainList_ne_nil e]

theorem setLastStacktrace_append (l : List Exception) (e : Exception)
    (st : Option Stacktrace) :
    setLastStacktrace (l ++ [e]) st = l ++ [{ e with stacktrace := st }] := by
  induction l with
  | nil => rfl
  | cons a l ih =>
    cases l with
    | nil => rfl
    | cons b l' =>
      simp only [List.cons_append] at ih ⊢
      rw [setLastStacktrace, ih]

theorem setLastStacktrace_eq (l : List Exception) (st : Option Stacktrace)
    (h : l ≠ []) :
    setLastStacktrace l st =
      l.dropLast ++ [{ l.getLast h with stacktrace := st }] := by
  conv_lhs => rw [← List.dropLast_concat_getLast h]
  rw [setLastStacktrace_append]

theorem setLastStacktrace_length (l : List Exception) (st : Option Stacktrace) :
    (setLastStacktrace l st).length = l.length := by
  cases l with
  | nil => rfl
  | cons a l =>
    rw [setLastStacktrace_eq _ st (List.cons_ne_nil a l)]
    simp

theorem setLastStacktrace_dropLast (l : List Exception) (st : Option Stacktrace) :
    (setLastStacktrace l st).dropLast = l.dropLast := by
  cases l with
  | nil => rfl
  | cons a l =>
    rw [setLastStacktrace_eq _ st (List.cons_ne_nil a l)]
    simp

theorem setLastStacktrace_getLast (l : List Exception) (st : Option Stacktrace) :
    (setLastStacktrace l st).getLast? =
      l.getLast?.map (fun e => { e with stacktrace := st }) := by
  cases l with
  | nil => rfl
  | cons a l =>
    rw [setLastStacktrace_eq _ st (List.cons_ne_nil a l),
      List.getLast?_eq_getLast _ (List.cons_ne_nil a l)]
    simp [List.getLast?_concat]

theorem event_from_error_all_none (e : ErrorObj) :
    ((event_from_error e).exception.all fun exc => exc.stacktrace.isNone) = true := by
  simp [event_from_error, exception_from_error, Function.comp]

theorem setLastStacktrace_none_all (l : List Exception)
    (h : (l.all fun e => e.stacktrace.isNone) = true) :
    ((setLastStacktrace l none).all fun e => e.stacktrace.isNone) = true := by
  cases l with
  | nil => rfl
  | cons a l =>
    rw [setLastStacktrace_eq _ none (List.cons_ne_nil a l)]
    rw [List.all_eq_true] at h ⊢
    intro x hx
    rcases List.mem_append.1 hx with hx | hx
    · exact h x (List.dropLast_sublist _ |>.mem hx)
    · rcases List.mem_singleton.1 hx with rfl
      rfl

theorem event_from_report_false_eq (r : Report) :
    event_from_report false r = event_from_error r.root := rfl

theorem event_from_report_none_eq (stable_backtrace : Bool) (r : Report)
    (h : r.backtrace = none) :
    event_from_report stable_backtrace r = event_from_error r.root := by
  cases stable_backtrace with
  | false => rfl
  | true =>
    rw [event_from_report]
    simp only [if_pos]
    rw [attach_backtrace, h]
    split <;> rfl

theorem event_from_report_some_eq (r : Report) (bt : Backtrace)
    (h : r.backtrace = some bt) :
    event_from_report true r =
      { event_from_error r.root with
          exception := setLastStacktrace (event_from_error r.root).exception
            (parse_stacktrace bt.render) } := by
  rw [event_from_report]
  simp only [if_pos]
  rw [attach_backtrace,
    if_neg (by simpa [List.isEmpty_iff] using
      event_from_error_exception_ne_nil r.root), h]

theorem event_from_report_length (stable_backtrace : Bool) (r : Report) :
    (event_from_report stable_backtrace r).exception.length
      = (chainList r.root).length := by
  cases stable_backtrace with
  | false => simp [event_from_report_false_eq, event_from_error]
  | true =>
    cases hb : r.backtrace with
    | none =>
      rw [event_from_report_none_eq _ _ hb]
      simp [event_from_error]
    | some bt =>
      rw [event_from_report_some_eq _ _ hb]
      simp [setLastStacktrace_length, event_from_error]

/-! ## Claims -/

/-- C1: for every report whose cause chain has N links (the root error plus all
transitive sources), `event_from_report` returns an event whose exception list
has exactly N records, and N is at least 1. -/
theorem C1_exception_count (stable_backtrace : Bool) (r : Report) :
    (event_from_report stable_backtrace r).exception.length
        = (chainList r.root).length
      ∧ 1 ≤ (event_from_report stable_backtrace r).exception.length := by
  refine ⟨event_from_report_length stable_backtrace r, ?_⟩
  rw [event_from_report_length stable_backtrace r]
  have := chainList_ne_nil r.root
  cases hchain : chainList r.root with
  | nil => exact absurd hchain this
  | cons a l => simp

/-- C2: when stack-trace capture is enabled and the report carries a captured
backtrace, `event_from_report` sets the stacktrace of exactly the last
exception record (the root/deepest cause) to the parsed frames, overwriting any
previous value, and touches no other record. -/
theorem C2_backtrace_on_last (r : Report) (bt : Backtrace)
    (h : r.backtrace = some bt) :
    (event_from_report true r).exception.dropLast
        = (event_from_error r.root).exception.dropLast
      ∧ (event_from_report true r).exception.getLast?
        = ((event_from_error r.root).exception.getLast?).map
            fun e => { e with stacktrace := parse_stacktrace bt.render } := by
  rw [event_from_report_some_eq _ _ h]
  exact ⟨setLastStacktrace_dropLast _ _, setLastStacktrace_getLast _ _⟩

theorem C2_backtrace_on_last_witness :
    ((Report.mk (ErrorObj.base "E" "boom") (some (Backtrace.mk "  frame1"))).backtrace
        = some (Backtrace.mk "  frame1"))
      ∧ ((event_from_report true
            (Report.mk (ErrorObj.base "E" "boom")
              (some (Backtrace.mk "  frame1")))).exception.dropLast
          = (event_from_error (ErrorObj.base "E" "boom")).exception.dropLast
        ∧ (event_from_report true
            (Report.mk (ErrorObj.base "E" "boom")
              (some (Backtrace.mk "  frame1")))).exception.getLast?
          = ((event_from_error (ErrorObj.base "E" "boom")).exception.getLast?).map
              fun e =>
                { e with stacktrace := parse_stacktrace (Backtrace.mk "  frame1").render }) :=
  ⟨rfl, C2_backtrace_on_last
    (Report.mk (ErrorObj.base "E" "boom") (some (Backtrace.mk "  frame1")))
    (Backtrace.mk "  frame1") rfl⟩

/-- C3: the event dispatched by `capture_report` (and by `Hub.capture_report`,
to which it delegates) is exactly the event built by `event_from_report` on the
same report; in particular its exception list is structurally equal to the one
`event_from_report` produces. -/
theorem C3_dispatch_matches_build (stable_backtrace : Bool) (hub : Hub) (r : Report) :
    (capture_report stable_backtrace (some hub) r).2
        = some (hub.capture_report stable_backtrace r).2
      ∧ (hub.capture_report stable_backtrace r).2.captured
        = hub.captured ++ [event_from_report stable_backtrace r]
      ∧ (((hub.capture_report stable_backtrace r).2.captured.getLast?).map
          fun ev => ev.exception)
        = some (event_from_report stable_backtrace r).exception := by
  refine ⟨rfl, rfl, ?_⟩
  simp [Hub.capture_report, Hub.capture_event, List.getLast?_concat]

/-- C4: for every report wrapping a single-level error (no deeper cause),
`event_from_report` returns an event with exactly one exception record whose
`value` equals the error's rendered message; in particular for the message
"this method has failed.". -/
theorem C4_single_level (stable_backtrace : Bool) (ty m : String)
    (bt : Option Backtrace) :
    ((event_from_report stable_backtrace
        { root := ErrorObj.base ty m, backtrace := bt }).exception.map
          fun e => e.value) = [m] := by
  cases stable_backtrace <;> cases bt <;>
    simp [event_from_report, attach_backtrace, event_from_error, chainList,
      exception_from_error, ErrorObj.message, setLastStacktrace]

/-- C5: the event returned by `event_from_report` agrees with the external
SDK's default conversion in every field except, at most, the stacktrace of the
last exception record; when capture is disabled or no backtrace is present the
event is returned entirely unmodified. -/
theorem C5_only_last_differs (stable_backtrace : Bool) (r : Report) :
    ((event_from_report stable_backtrace r).level = (event_from_error r.root).level
      ∧ (event_from_report stable_backtrace r).exception.dropLast
          = (event_from_error r.root).exception.dropLast
      ∧ ((event_from_report stable_backtrace r).exception.getLast?).map
            (fun e => (e.ty, e.value))
          = ((event_from_error r.root).exception.getLast?).map
            fun e => (e.ty, e.value))
      ∧ event_from_report false r = event_from_error r.root
      ∧ event_from_report stable_backtrace { r with backtrace := none }
          = event_from_error r.root := by
  refine ⟨?_, event_from_report_false_eq r, event_from_report_none_eq _ _ rfl⟩
  cases stable_backtrace with
  | false => exact ⟨rfl, rfl, rfl⟩
  | true =>
    cases hb : r.backtrace with
    | none => rw [event_from_report_none_eq _ _ hb]; exact ⟨rfl, rfl, rfl⟩
    | some bt =>
      rw [event_from_report_some_eq _ _ hb]
      refine ⟨rfl, setLastStacktrace_dropLast _ _, ?_⟩
      rw [setLastStacktrace_getLast]
      cases (event_from_error r.root).exception.getLast? <;> rfl

/-- C6: when stack-trace capture is disabled, or the report carries no captured
backtrace, no exception record of the returned event has its stacktrace field
populated. -/
theorem C6_no_stacktrace (stable_backtrace : Bool) (r : Report) :
    ((event_from_report false r).exception.all fun e => e.stacktrace.isNone) = true
      ∧ ((event_from_report stable_backtrace
          { r with backtrace := none }).exception.all
            fun e => e.stacktrace.isNone) = true := by
  constructor
  · rw [event_from_report_false_eq]
    exact event_from_error_all_none r.root
  · rw [event_from_report_none_eq _ _ rfl]
    exact event_from_error_all_none r.root

/-- C7: `event_from_report` is pure and idempotent — it is a function of the
report's observable structure only, so two calls on structurally equal reports
yield structurally equal events, and the input report is never mutated (the
embedding is a pure function of the report value). -/
theorem C7_deterministic (stable_backtrace : Bool) (r r' : Report)
    (h1 : r.root = r'.root) (h2 : r.backtrace = r'.backtrace) :
    event_from_report stable_backtrace r = event_from_report stable_backtrace r' := by
  cases r
  cases r'
  cases h1
  cases h2
  rfl

theorem C7_deterministic_witness :
    ((Report.mk (ErrorObj.base "E" "m") none).root
        = (Report.mk (ErrorObj.base "E" "m") none).root)
      ∧ ((Report.mk (ErrorObj.base "E" "m") none).backtrace
        = (Report.mk (ErrorObj.base "E" "m") none).backtrace)
      ∧ event_from_report true (Report.mk (ErrorObj.base "E" "m") none)
        = event_from_report true (Report.mk (ErrorObj.base "E" "m") none) :=
  ⟨rfl, rfl, C7_deterministic true
    (Report.mk (ErrorObj.base "E" "m") none)
    (Report.mk (ErrorObj.base "E" "m") none) rfl rfl⟩

/-- C8: `event_from_report` and `capture_report` are total over every
well-formed report; a backtrace whose parse yields no frames degrades to an
event with full record count and no stack trace rather than aborting. -/
theorem C8_total_graceful (stable_backtrace : Bool) (root : ErrorObj)
    (bt : String) (h : parse_stacktrace bt = none) :
    (event_from_report stable_backtrace
        (Report.mk root (some (Backtrace.mk bt)))).exception.length
        = (chainList root).length
      ∧ ((event_from_report stable_backtrace
          (Report.mk root (some (Backtrace.mk bt)))).exception.all
            fun e => e.stacktrace.isNone) = true
      ∧ capture_report stable_backtrace none (Report.mk root (some (Backtrace.mk bt)))
          = (Uuid.nil, none) := by
  refine ⟨event_from_report_length _ _, ?_, rfl⟩
  cases stable_backtrace with
  | false => exact event_from_error_all_none root
  | true =>
    rw [event_from_report_some_eq _ (Backtrace.mk bt) rfl]
    show ((setLastStacktrace _ (parse_stacktrace bt)).all _) = true
    rw [h]
    exact setLastStacktrace_none_all _ (event_from_error_all_none root)

theorem C8_total_graceful_witness :
    parse_stacktrace "" = none
      ∧ ((event_from_report true
            (Report.mk (ErrorObj.base "E" "m") (some (Backtrace.mk "")))).exception.length
          = (chainList (ErrorObj.base "E" "m")).length
        ∧ ((event_from_report true
            (Report.mk (ErrorObj.base "E" "m") (some (Backtrace.mk "")))).exception.all
              fun e => e.stacktrace.isNone) = true
        ∧ capture_report true none (Report.mk (ErrorObj.base "E" "m") (some (Backtrace.mk "")))
            = (Uuid.nil, none)) :=
  ⟨rfl, C8_total_graceful true (ErrorObj.base "E" "m") "" rfl⟩

/-- C9: with no active context, `capture_report` returns the external SDK's nil
identifier; with an active context, it returns the identifier that context
produced for the submitted event. -/
theorem C9_dispatch_identifier (stable_backtrace : Bool) (r : Report) (hub : Hub) :
    (capture_report stable_backtrace none r).1 = Uuid.nil
      ∧ (capture_report stable_backtrace (some hub) r).1 = hub.nextId := by
  exact ⟨rfl, rfl⟩

/-- C10: the backtrace-attachment step is guarded: on an event with an empty
exception list it returns the event unchanged (the backtrace is never looked
up), and on a non-empty list whose backtrace parses to nothing the last
record's stacktrace becomes unset, with the record count preserved, rather than
the operation failing; `event_from_report` with capture enabled is exactly this
step applied to the default conversion. -/
theorem C10_empty_guard (r : Report) (ev1 ev2 : Event) (bt : Backtrace)
    (h1 : ev1.exception = [])
    (h2 : r.backtrace = some bt)
    (h3 : parse_stacktrace bt.render = none)
    (h4 : ev2.exception ≠ []) :
    attach_backtrace r ev1 = ev1
      ∧ ((attach_backtrace r ev2).exception.getLast?).map
          (fun e => e.stacktrace) = some none
      ∧ (attach_backtrace r ev2).exception.length = ev2.exception.length
      ∧ event_from_report true r = attach_backtrace r (event_from_error r.root) := by
  refine ⟨?_, ?_, ?_, rfl⟩
  · rw [attach_backtrace, if_pos (by simpa [List.isEmpty_iff] using h1)]
  · rw [attach_backtrace, if_neg (by simpa [List.isEmpty_iff] using h4), h2]
    show ((setLastStacktrace _ (parse_stacktrace bt.render)).getLast?.map _) = some none
    rw [h3, setLastStacktrace_getLast,
      List.getLast?_eq_getLast _ h4]
    rfl
  · rw [attach_backtrace, if_neg (by simpa [List.isEmpty_iff] using h4), h2]
    exact setLastStacktrace_length _ _

theorem C10_empty_guard_witness :
    ((Event.mk [] "error").exception = []
      ∧ (Report.mk (ErrorObj.base "E" "m") (some (Backtrace.mk ""))).backtrace
          = some (Backtrace.mk "")
      ∧ parse_stacktrace (Backtrace.mk "").render = none
      ∧ (Event.mk [Exception.mk "E" "m" none] "error").exception ≠ [])
      ∧ (attach_backtrace (Report.mk (ErrorObj.base "E" "m") (some (Backtrace.mk "")))
            (Event.mk [] "error") = Event.mk [] "error"
        ∧ ((attach_backtrace (Report.mk (ErrorObj.base "E" "m") (some (Backtrace.mk "")))
            (Event.mk [Exception.mk "E" "m" none] "error")).exception.getLast?).map
              (fun e => e.stacktrace) = some none
        ∧ (attach_backtrace (Report.mk (ErrorObj.base "E" "m") (some (Backtrace.mk "")))
            (Event.mk [Exception.mk "E" "m" none] "error")).exception.length
            = (Event.mk [Exception.mk "E" "m" none] "error").exception.length
        ∧ event_from_report true (Report.mk (ErrorObj.base "E" "m") (some (Backtrace.mk "")))
            = attach_backtrace (Report.mk (ErrorObj.base "E" "m") (some (Backtrace.mk "")))
                (event_from_error (ErrorObj.base "E" "m"))) :=
  ⟨⟨rfl, rfl, rfl, List.cons_ne_nil _ _⟩,
    C10_empty_guard (Report.mk (ErrorObj.base "E" "m") (some (Backtrace.mk "")))
      (Event.mk [] "error") (Event.mk [Exception.mk "E" "m" none] "error")
      (Backtrace.mk "") rfl rfl rfl (List.cons_ne_nil _ _)⟩
